import Mathlib

set_option maxRecDepth 10000

/-!
Verification development for the llama3.2_OCR repository.

The repository's core logic lives in `src/ocr_processor.py`:
  * `OCRProcessor.split_image_into_horizontal_stripes` cuts an image into
    horizontal stripes with a configurable overlap fraction;
  * `OCRProcessor.encode_image_pil` normalises an image to RGB, compresses it
    as JPEG at quality 90 and base64-encodes the bytes;
  * `OCRProcessor.format_to_table` joins the per-stripe OCR outputs with a
    blank line, sends them to a remote consolidation model and returns the
    trimmed response;
and in `config/settings.py`, which reads `GROQ_API_KEY` from the process
environment via `os.getenv` (yielding `None` when the variable is absent).

Python integers are modelled as `Int`, Python floats on the inputs of
interest as `ℚ` (the fractions at stake, such as `0.1`, behave identically),
`//` as flooring division with a `ZeroDivisionError` on a zero divisor, and
`int(·)` on a float as truncation toward zero.  Remote-model invocations are
modelled by an explicit oracle `RemoteCall → String` passed as a parameter,
and each operation also returns the list of remote calls it issued, so that
claims about "no remote call is made" are expressible.
-/

namespace OCR

/-- Equality of `Except` values is decidable when it is on both sides. -/
instance exceptDecidableEq {ε α : Type} [DecidableEq ε] [DecidableEq α] :
    DecidableEq (Except ε α)
  | .error a, .error b =>
      if h : a = b then .isTrue (by rw [h]) else .isFalse (by simp [h])
  | .error _, .ok _ => .isFalse (by simp)
  | .ok _, .error _ => .isFalse (by simp)
  | .ok a, .ok b =>
      if h : a = b then .isTrue (by rw [h]) else .isFalse (by simp [h])

/-- Kinds of Python exceptions relevant to the modelled code paths. -/
inductive PyError where
  | zeroDivisionError
  | valueError
  | typeError
deriving DecidableEq

/-- Python `int(x)` on a float/rational: truncation toward zero. -/
def pyInt (q : ℚ) : Int := if 0 ≤ q then ⌊q⌋ else ⌈q⌉

/-- Python `a // b` on integers: flooring division, raising
`ZeroDivisionError` when `b = 0`. -/
def pyFloorDiv (a b : Int) : Except PyError Int :=
  if b = 0 then .error .zeroDivisionError else .ok (a.fdiv b)

/-- Python `range(n)` (as integers); empty for `n ≤ 0`. -/
def pyRange (n : Int) : List Int :=
  (List.range n.toNat).map Int.ofNat

/-- A PIL image: width, height, and an RGB pixel accessor.  Only the
dimensions matter to the stripe splitter; the pixel data is carried so the
encoder can be stated over full images. -/
structure PILImage where
  width : Nat
  height : Nat
  px : Nat → Nat → Nat × Nat × Nat

/-- A crop box `(left, upper, right, lower)` as passed to `Image.crop`.
Each stripe produced by the splitter is the crop of the input image by such
a box, so the stripes' geometry is exactly the list of boxes. -/
structure CropBox where
  left : Int
  upper : Int
  right : Int
  lower : Int
deriving DecidableEq

/-- `upper = max(i * stripe_height - overlap_height, 0)`
(source line 75 of `ocr_processor.py`). -/
def stripeUpper (stripe_height overlap_height : Int) (i : Int) : Int :=
  max (i * stripe_height - overlap_height) 0

/-- `lower = min((i + 1) * stripe_height + overlap_height, height)`
(source line 76 of `ocr_processor.py`). -/
def stripeLower (height stripe_height overlap_height : Int) (i : Int) : Int :=
  min ((i + 1) * stripe_height + overlap_height) height

/-- The crop box `(0, upper, width, lower)` built for stripe `i`
(source line 77 of `ocr_processor.py`). -/
def stripeBox (height width stripe_height overlap_height : Int) (i : Int) : CropBox :=
  { left := 0
    upper := stripeUpper stripe_height overlap_height i
    right := width
    lower := stripeLower height stripe_height overlap_height i }

/-- `OCRProcessor.split_image_into_horizontal_stripes` (source lines 47-79),
returned at the level of the crop boxes handed to `Image.crop`:

    width, height = image.size
    stripe_height = height // stripe_count
    overlap_height = int(stripe_height * overlap)
    stripes = []
    for i in range(stripe_count):
        upper = max(i * stripe_height - overlap_height, 0)
        lower = min((i + 1) * stripe_height + overlap_height, height)
        stripe = image.crop((0, upper, width, lower))
        stripes.append(stripe)
    return stripes

The function performs no validation of `stripe_count` or `overlap`; the only
failure reachable in it is the `ZeroDivisionError` of `height // 0`. -/
def split_image_into_horizontal_stripes (image : PILImage) (stripe_count : Int)
    (overlap : ℚ) : Except PyError (List CropBox) :=
  let width : Int := image.width
  let height : Int := image.height
  match pyFloorDiv height stripe_count with
  | .error e => .error e
  | .ok stripe_height =>
      let overlap_height := pyInt ((stripe_height : ℚ) * overlap)
      .ok ((pyRange stripe_count).map
        (stripeBox height width stripe_height overlap_height))

/-- Row `r` lies inside stripe box `b` (the crop keeps rows
`upper ≤ r < lower`). -/
def rowInStripe (b : CropBox) (r : Int) : Prop :=
  b.upper ≤ r ∧ r < b.lower

instance (b : CropBox) (r : Int) : Decidable (rowInStripe b r) := by
  unfold rowInStripe; infer_instance

/-- Row `r` is covered by at least one stripe box of the list. -/
def rowCovered (boxes : List CropBox) (r : Int) : Prop :=
  ∃ b ∈ boxes, rowInStripe b r

instance (boxes : List CropBox) (r : Int) : Decidable (rowCovered boxes r) := by
  unfold rowCovered; infer_instance

/-- The configuration passed to the `ChatGroq` client constructor
(api key, model name, `temperature=0`, `max_retries=3`). -/
structure ChatGroqConfig where
  groq_api_key : Option String
  model_name : String
  temperature : ℚ
  max_retries : Nat
deriving DecidableEq

/-- One remote-model invocation: the client configuration it was issued
with and the prompt content. -/
structure RemoteCall where
  config : ChatGroqConfig
  prompt : String
deriving DecidableEq

/-- The consolidation prompt of `format_to_table` (source lines 167-177): the
f-string with `combined_markdown` interpolated at the end. -/
def consolidationPrompt (combined_markdown : String) : String :=
  String.intercalate "\n"
    [ ""
    , "                    Você recebeu vários outputs em markdown extraídos de seções sobrepostas de uma imagem."
    , "                    Algumas seções podem conter informações duplicadas ou conflitantes devido à sobreposição."
    , "                    Sua tarefa é:"
    , "                    1. Identificar e consolidar linhas de dados que estão relacionadas, garantindo que a versão mais completa da informação seja mantida."
    , "                    2. Para linhas com informações conflitantes (por exemplo, valores diferentes para um campo), priorize a entrada mais detalhada."
    , "                    3. Se um campo está faltando em uma linha mas está presente em outra, combine as informações em uma única linha."
    , "                    4. Produza os dados consolidados em um formato tabular limpo usando a sintaxe Markdown, adequada para renderização direta."
    , "                    5. Somente saída Markdown: Retorne apenas o conteúdo em Markdown sem nenhuma explicação ou comentário adicional."
    , "                    Aqui está o conteúdo a ser processado: " ++ combined_markdown
    , "                " ]

/-- `OCRProcessor.format_to_table` (source lines 132-182):

    groq_llm = ChatGroq(groq_api_key=..., model_name=model, temperature=0, max_retries=3)
    combined_markdown = "\n\n".join(markdown_runs)
    messages = [new user message with the consolidation prompt]
    response = groq_llm.invoke(messages)
    return response.content.strip()

The remote model is the oracle `invoke`; the result pairs the returned string
with the list of remote calls issued (always exactly the one `invoke` call:
the function has no validation or early return, also on an empty list). -/
def format_to_table (invoke : RemoteCall → String) (groq_api_key : Option String)
    (markdown_runs : List String) (model : String) : String × List RemoteCall :=
  let groq_llm : ChatGroqConfig :=
    { groq_api_key := groq_api_key
      model_name := model
      temperature := 0
      max_retries := 3 }
  let combined_markdown := String.intercalate "\n\n" markdown_runs
  let call : RemoteCall := { config := groq_llm, prompt := consolidationPrompt combined_markdown }
  ((invoke call).trim, [call])

/-- The base64 alphabet. -/
def base64Chars : List Char :=
  "ABCDEFGHIJKLMNOPQRSTUVWXYZabcdefghijklmnopqrstuvwxyz0123456789+/".toList

/-- The base64 digit for a 6-bit value. -/
def base64Char (n : Nat) : Char := base64Chars.getD n '='

/-- Standard base64 of a byte list, 3 bytes to 4 digits with `=` padding
(the behaviour of Python `base64.b64encode`). -/
def base64EncodeChunks : List Nat → List Char
  | b1 :: b2 :: b3 :: rest =>
      let w := b1 % 256 * 65536 + b2 % 256 * 256 + b3 % 256
      base64Char (w / 262144) :: base64Char (w / 4096 % 64) ::
        base64Char (w / 64 % 64) :: base64Char (w % 64) :: base64EncodeChunks rest
  | [b1, b2] =>
      let w := b1 % 256 * 256 + b2 % 256
      [base64Char (w / 1024), base64Char (w / 16 % 64), base64Char (w % 16 * 4), '=']
  | [b1] =>
      [base64Char (b1 % 256 / 4), base64Char (b1 % 256 % 4 * 16), '=', '=']
  | [] => []

/-- Python `base64.b64encode(...).decode("utf-8")` as a string. -/
def b64encode (bytes : List Nat) : String := String.mk (base64EncodeChunks bytes)

/-- `OCRProcessor.encode_image_pil` (source lines 22-45):

    buffered = io.BytesIO()
    image = image.convert("RGB")
    image.save(buffered, format="JPEG", quality=90)
    return base64.b64encode(buffered.getvalue()).decode("utf-8")

`convert` models PIL `Image.convert("RGB")` and `jpegSave` models the JPEG
compressor at the given quality (90 here); both are external PIL library
code, taken as parameters of the embedding. -/
def encode_image_pil (convert : PILImage → PILImage)
    (jpegSave : PILImage → Nat → List Nat) (image : PILImage) : String :=
  b64encode (jpegSave (convert image) 90)

/-- `config/settings.py`: `GROQ_API_KEY = os.getenv("GROQ_API_KEY")`.
`os.getenv` returns `None` when the variable is absent; no check is made. -/
def load_GROQ_API_KEY (env : String → Option String) : Option String :=
  env "GROQ_API_KEY"

/-- The `OCRProcessor` object: its only state is the stored api key. -/
structure OCRProcessor where
  groq_api_key : Option String

/-- `OCRProcessor.__init__` (source lines 19-20): stores the module-level
`GROQ_API_KEY` unconditionally. -/
def OCRProcessor.init (env : String → Option String) : OCRProcessor :=
  { groq_api_key := load_GROQ_API_KEY env }

/-- An all-black pixel field, used for the concrete test images. -/
def testPx : Nat → Nat → Nat × Nat × Nat := fun _ _ => (0, 0, 0)

/-- The 500 × 1000 image of the spec's worked example. -/
def img500x1000 : PILImage := ⟨500, 1000, testPx⟩

/-- A 10 × 3 image (height 3). -/
def img10x3 : PILImage := ⟨10, 3, testPx⟩

/-- A 100 × 100 image. -/
def img100x100 : PILImage := ⟨100, 100, testPx⟩

/-- A zero-dimension image. -/
def img0x0 : PILImage := ⟨0, 0, testPx⟩

/-! ### Helper lemmas about the splitter -/

lemma pyRange_length (n : Int) : (pyRange n).length = n.toNat := by
  rw [pyRange, List.length_map, List.length_range]

lemma map_pyRange_get (g : Int → CropBox) (n : Int) (i : Nat)
    (hi : i < ((pyRange n).map g).length) :
    ((pyRange n).map g).get ⟨i, hi⟩ = g (i : Int) := by
  simp only [List.get_eq_getElem, pyRange, List.getElem_map, List.getElem_range,
    Int.ofNat_eq_natCast]

lemma mem_map_pyRange {g : Int → CropBox} {n : Int} {b : CropBox} :
    b ∈ (pyRange n).map g ↔ ∃ k : Nat, k < n.toNat ∧ b = g (k : Int) := by
  unfold pyRange
  rw [List.map_map]
  constructor
  · intro hb
    obtain ⟨k, hk, hgk⟩ := List.mem_map.mp hb
    exact ⟨k, List.mem_range.mp hk, hgk.symm⟩
  · rintro ⟨k, hk, hbk⟩
    exact List.mem_map.mpr ⟨k, List.mem_range.mpr hk, hbk.symm⟩

lemma split_eq_ok (image : PILImage) (n : Int) (f : ℚ) (hn : n ≠ 0) :
    split_image_into_horizontal_stripes image n f =
      Except.ok ((pyRange n).map (stripeBox (image.height : Int) (image.width : Int)
        ((image.height : Int).fdiv n)
        (pyInt ((((image.height : Int).fdiv n : Int) : ℚ) * f)))) := by
  simp [split_image_into_horizontal_stripes, pyFloorDiv, hn]

lemma pyInt_eq_floor {q : ℚ} (h : 0 ≤ q) : pyInt q = ⌊q⌋ := by
  simp [pyInt, h]

/-- The arithmetic facts shared by the splitter theorems, for
`SH = H // n` and `OH = ⌊SH * f⌋`: both are nonnegative, `OH ≤ SH`,
`n * SH ≤ H < n * SH + n`, and the code's `int(SH * overlap)` equals the
mathematical floor. -/
lemma split_context (image : PILImage) (n : Int) (f : ℚ)
    (hn : 1 ≤ n) (hf0 : 0 ≤ f) (hf1 : f ≤ 1) :
    0 ≤ (image.height : Int).fdiv n ∧
    0 ≤ ⌊(((image.height : Int).fdiv n : Int) : ℚ) * f⌋ ∧
    ⌊(((image.height : Int).fdiv n : Int) : ℚ) * f⌋ ≤ (image.height : Int).fdiv n ∧
    n * ((image.height : Int).fdiv n) ≤ (image.height : Int) ∧
    (image.height : Int) < n * ((image.height : Int).fdiv n) + n ∧
    pyInt ((((image.height : Int).fdiv n : Int) : ℚ) * f) =
      ⌊(((image.height : Int).fdiv n : Int) : ℚ) * f⌋ := by
  have hH : (0 : Int) ≤ (image.height : Int) := Int.natCast_nonneg _
  have hne : n ≠ 0 := by omega
  have hSH : 0 ≤ (image.height : Int).fdiv n := Int.fdiv_nonneg hH (by omega)
  have hprod : (0 : ℚ) ≤ (((image.height : Int).fdiv n : Int) : ℚ) * f :=
    mul_nonneg (by exact_mod_cast hSH) hf0
  have hOH0 : 0 ≤ ⌊(((image.height : Int).fdiv n : Int) : ℚ) * f⌋ :=
    Int.floor_nonneg.mpr hprod
  have hOHSH : ⌊(((image.height : Int).fdiv n : Int) : ℚ) * f⌋ ≤
      (image.height : Int).fdiv n := by
    have h1 : (((image.height : Int).fdiv n : Int) : ℚ) * f ≤
        (((image.height : Int).fdiv n : Int) : ℚ) :=
      mul_le_of_le_one_right (by exact_mod_cast hSH) hf1
    have h2 := Int.floor_mono h1
    rwa [Int.floor_intCast] at h2
  have hfd : (image.height : Int).fdiv n = (image.height : Int) / n :=
    Int.fdiv_eq_ediv _ (by omega)
  have hdm := Int.ediv_add_emod (image.height : Int) n
  have hm0 := Int.emod_nonneg (image.height : Int) hne
  have hmlt := Int.emod_lt_of_pos (image.height : Int) (show 0 < n by omega)
  have hIle : n * ((image.height : Int).fdiv n) ≤ (image.height : Int) := by
    rw [hfd]; omega
  have hIlt : (image.height : Int) < n * ((image.height : Int).fdiv n) + n := by
    rw [hfd]; omega
  exact ⟨hSH, hOH0, hOHSH, hIle, hIlt, pyInt_eq_floor hprod⟩

/-- Covered rows of the stripe list are exactly the initial segment
`[0, min(n * SH + OH, H))`: the row ranges chain with no gaps from row 0 up
to the last stripe's lower bound. -/
lemma covered_iff (H W n SH OH : Int)
    (hH : 0 ≤ H) (hn : 1 ≤ n) (hSH : 0 ≤ SH) (hOH0 : 0 ≤ OH) (hOHSH : OH ≤ SH)
    (hnSH : n * SH ≤ H) (r : Int) :
    rowCovered ((pyRange n).map (stripeBox H W SH OH)) r ↔
      0 ≤ r ∧ r < min (n * SH + OH) H := by
  constructor
  · rintro ⟨b, hb, hr1, hr2⟩
    rw [mem_map_pyRange] at hb
    obtain ⟨k, hk, rfl⟩ := hb
    simp only [stripeBox, stripeUpper, stripeLower] at hr1 hr2
    have hk1 : (k : Int) + 1 ≤ n := by omega
    have hmul : ((k : Int) + 1) * SH ≤ n * SH :=
      mul_le_mul_of_nonneg_right hk1 hSH
    refine ⟨by omega, by omega⟩
  · rintro ⟨hr0, hrlt⟩
    have hcast : ((n.toNat - 1 : Nat) : Int) + 1 = n := by omega
    have hex : ∃ m : Nat, r < stripeLower H SH OH (m : Int) := by
      refine ⟨n.toNat - 1, ?_⟩
      simp only [stripeLower, hcast]
      omega
    have hkfind := Nat.find_spec hex
    have hkle : Nat.find hex ≤ n.toNat - 1 := Nat.find_le (by
      simp only [stripeLower, hcast]
      omega)
    have hklt : Nat.find hex < n.toNat := by omega
    refine ⟨stripeBox H W SH OH (Nat.find hex : Int),
      mem_map_pyRange.mpr ⟨Nat.find hex, hklt, rfl⟩, ?_, hkfind⟩
    simp only [stripeBox, stripeUpper]
    rcases Nat.eq_zero_or_pos (Nat.find hex) with h0 | hpos
    · rw [h0]
      simp only [Nat.cast_zero, zero_mul]
      omega
    · obtain ⟨j, hj⟩ : ∃ j, Nat.find hex = j + 1 := ⟨Nat.find hex - 1, by omega⟩
      have hjlt : ¬ r < stripeLower H SH OH (j : Int) :=
        Nat.find_min hex (by omega)
      simp only [stripeLower] at hjlt
      have hj1 : (j : Int) + 1 ≤ n := by omega
      have hmul : ((j : Int) + 1) * SH ≤ n * SH :=
        mul_le_mul_of_nonneg_right hj1 hSH
      rw [hj]
      push_cast
      omega

/-! ### Theorems for the claims -/

/-- Claim C1: for every image of height `H`, stripe count `n ≥ 1` and overlap
fraction `f ∈ [0,1]`, the splitter returns `n` stripes where, with
`baseStripeHeight = ⌊H / n⌋` and `overlapHeight = ⌊baseStripeHeight * f⌋`,
stripe `i` has upper bound `max(i * baseStripeHeight - overlapHeight, 0)`,
lower bound `min((i+1) * baseStripeHeight + overlapHeight, H)`, and
left/right bounds `0` and the full image width. -/
theorem split_stripe_bounds (image : PILImage) (n : Int) (f : ℚ)
    (hn : 1 ≤ n) (hf0 : 0 ≤ f) (hf1 : f ≤ 1) :
    ∃ boxes, split_image_into_horizontal_stripes image n f = Except.ok boxes ∧
      boxes.length = n.toNat ∧
      ∀ i : Nat, ∀ hi : i < boxes.length,
        boxes.get ⟨i, hi⟩ =
          { left := 0
            upper := max ((i : Int) * ((image.height : Int).fdiv n) -
              ⌊(((image.height : Int).fdiv n : Int) : ℚ) * f⌋) 0
            right := (image.width : Int)
            lower := min (((i : Int) + 1) * ((image.height : Int).fdiv n) +
              ⌊(((image.height : Int).fdiv n : Int) : ℚ) * f⌋) (image.height : Int) } := by
  obtain ⟨hSH, hOH0, hOHSH, hle, hlt, hpy⟩ := split_context image n f hn hf0 hf1
  refine ⟨_, by rw [split_eq_ok image n f (by omega), hpy], ?_, ?_⟩
  · rw [List.length_map, pyRange_length]
  · intro i hi
    rw [map_pyRange_get]
    rfl

/-- Claim C1, witness: the theorem applied to a 500 × 1000 image with
`n = 5` and `f = 1`. -/
theorem split_stripe_bounds_witness :
    (1 : Int) ≤ 5 ∧ (0 : ℚ) ≤ 1 ∧ (1 : ℚ) ≤ 1 ∧
    (∃ boxes, split_image_into_horizontal_stripes img500x1000 5 1 = Except.ok boxes ∧
      boxes.length = (5 : Int).toNat ∧
      ∀ i : Nat, ∀ hi : i < boxes.length,
        boxes.get ⟨i, hi⟩ =
          { left := 0
            upper := max ((i : Int) * ((img500x1000.height : Int).fdiv 5) -
              ⌊(((img500x1000.height : Int).fdiv 5 : Int) : ℚ) * 1⌋) 0
            right := (img500x1000.width : Int)
            lower := min (((i : Int) + 1) * ((img500x1000.height : Int).fdiv 5) +
              ⌊(((img500x1000.height : Int).fdiv 5 : Int) : ℚ) * 1⌋)
              (img500x1000.height : Int) }) :=
  ⟨by decide, zero_le_one, le_refl 1,
    split_stripe_bounds img500x1000 5 1 (by decide) zero_le_one (le_refl 1)⟩

/-- Claim C10: for every image, `n ≥ 1` and `f ∈ [0,1]`, the splitter
succeeds (never raises) and every stripe has valid crop bounds
`0 ≤ upper ≤ lower ≤ H`, column range exactly `[0, W)`, and the upper and
lower bounds are non-decreasing in the stripe index. -/
theorem split_bounds_invariant (image : PILImage) (n : Int) (f : ℚ)
    (hn : 1 ≤ n) (hf0 : 0 ≤ f) (hf1 : f ≤ 1) :
    ∃ boxes, split_image_into_horizontal_stripes image n f = Except.ok boxes ∧
      (∀ b ∈ boxes, 0 ≤ b.upper ∧ b.upper ≤ b.lower ∧ b.lower ≤ (image.height : Int) ∧
        b.left = 0 ∧ b.right = (image.width : Int)) ∧
      (∀ i j : Nat, ∀ hi : i < boxes.length, ∀ hj : j < boxes.length, i ≤ j →
        (boxes.get ⟨i, hi⟩).upper ≤ (boxes.get ⟨j, hj⟩).upper ∧
        (boxes.get ⟨i, hi⟩).lower ≤ (boxes.get ⟨j, hj⟩).lower) := by
  obtain ⟨hSH, hOH0, hOHSH, hle, hlt, hpy⟩ := split_context image n f hn hf0 hf1
  have hH : (0 : Int) ≤ (image.height : Int) := Int.natCast_nonneg _
  refine ⟨_, by rw [split_eq_ok image n f (by omega), hpy], ?_, ?_⟩
  · intro b hb
    rw [mem_map_pyRange] at hb
    obtain ⟨k, hk, rfl⟩ := hb
    simp only [stripeBox, stripeUpper, stripeLower]
    have hk1 : (k : Int) + 1 ≤ n := by omega
    have hmul1 : ((k : Int) + 1) * ((image.height : Int).fdiv n) ≤
        n * ((image.height : Int).fdiv n) := mul_le_mul_of_nonneg_right hk1 hSH
    have hmul2 : (k : Int) * ((image.height : Int).fdiv n) ≤
        ((k : Int) + 1) * ((image.height : Int).fdiv n) :=
      mul_le_mul_of_nonneg_right (by omega) hSH
    have hmul0 : 0 ≤ (k : Int) * ((image.height : Int).fdiv n) :=
      mul_nonneg (Int.natCast_nonneg _) hSH
    refine ⟨by omega, by omega, by omega, by trivial, by trivial⟩
  · intro i j hi hj hij
    rw [map_pyRange_get, map_pyRange_get]
    simp only [stripeBox, stripeUpper, stripeLower]
    have hmul : (i : Int) * ((image.height : Int).fdiv n) ≤
        (j : Int) * ((image.height : Int).fdiv n) :=
      mul_le_mul_of_nonneg_right (by exact_mod_cast hij) hSH
    have hmul1 : ((i : Int) + 1) * ((image.height : Int).fdiv n) ≤
        ((j : Int) + 1) * ((image.height : Int).fdiv n) :=
      mul_le_mul_of_nonneg_right (by exact_mod_cast (by omega : (i : Int) + 1 ≤ (j : Int) + 1)) hSH
    exact ⟨by omega, by omega⟩

/-- Claim C10, witness: the theorem applied to a 500 × 1000 image with
`n = 5` and `f = 1`. -/
theorem split_bounds_invariant_witness :
    (1 : Int) ≤ 5 ∧ (0 : ℚ) ≤ 1 ∧ (1 : ℚ) ≤ 1 ∧
    (∃ boxes, split_image_into_horizontal_stripes img500x1000 5 1 = Except.ok boxes ∧
      (∀ b ∈ boxes, 0 ≤ b.upper ∧ b.upper ≤ b.lower ∧ b.lower ≤ (img500x1000.height : Int) ∧
        b.left = 0 ∧ b.right = (img500x1000.width : Int)) ∧
      (∀ i j : Nat, ∀ hi : i < boxes.length, ∀ hj : j < boxes.length, i ≤ j →
        (boxes.get ⟨i, hi⟩).upper ≤ (boxes.get ⟨j, hj⟩).upper ∧
        (boxes.get ⟨i, hi⟩).lower ≤ (boxes.get ⟨j, hj⟩).lower)) :=
  ⟨by decide, zero_le_one, le_refl 1,
    split_bounds_invariant img500x1000 5 1 (by decide) zero_le_one (le_refl 1)⟩

/-- Claim C2 (amended): for every image, `n ≥ 1` and `f ∈ [0,1]`, the union
of the stripes' row ranges is exactly `[0, min(n * ⌊H/n⌋ + overlapHeight, H))`
with no gaps; it covers all of `[0, H)` precisely when `H mod n ≤
overlapHeight` (for example when `n` divides `H`), and otherwise the bottom
`H mod n - overlapHeight` rows are not covered by any stripe. -/
theorem split_coverage_amended (image : PILImage) (n : Int) (f : ℚ)
    (hn : 1 ≤ n) (hf0 : 0 ≤ f) (hf1 : f ≤ 1) :
    ∃ boxes, split_image_into_horizontal_stripes image n f = Except.ok boxes ∧
      (∀ r : Int, rowCovered boxes r ↔
        0 ≤ r ∧ r < min (n * ((image.height : Int).fdiv n) +
          ⌊(((image.height : Int).fdiv n : Int) : ℚ) * f⌋) (image.height : Int)) ∧
      ((∀ r : Int, 0 ≤ r → r < (image.height : Int) → rowCovered boxes r) ↔
        (image.height : Int) % n ≤ ⌊(((image.height : Int).fdiv n : Int) : ℚ) * f⌋) := by
  obtain ⟨hSH, hOH0, hOHSH, hle, hlt, hpy⟩ := split_context image n f hn hf0 hf1
  have hH : (0 : Int) ≤ (image.height : Int) := Int.natCast_nonneg _
  have hiff := covered_iff (image.height : Int) (image.width : Int) n
    ((image.height : Int).fdiv n) ⌊(((image.height : Int).fdiv n : Int) : ℚ) * f⌋
    hH hn hSH hOH0 hOHSH hle
  have hmod : (image.height : Int) % n =
      (image.height : Int) - n * ((image.height : Int).fdiv n) := by
    have hfd : (image.height : Int).fdiv n = (image.height : Int) / n :=
      Int.fdiv_eq_ediv _ (by omega)
    have := Int.ediv_add_emod (image.height : Int) n
    rw [hfd]
    omega
  have hge : 0 ≤ n * ((image.height : Int).fdiv n) := mul_nonneg (by omega) hSH
  refine ⟨_, by rw [split_eq_ok image n f (by omega), hpy], fun r => hiff r, ?_⟩
  constructor
  · intro hall
    by_cases hH0 : (image.height : Int) = 0
    · omega
    · have hcov := hall ((image.height : Int) - 1) (by omega) (by omega)
      rw [hiff ((image.height : Int) - 1)] at hcov
      omega
  · intro hOHge r hr0 hrH
    rw [hiff r]
    omega

/-- Claim C2 (amended), witness: the theorem applied to a 500 × 1000 image
with `n = 5` and `f = 1`. -/
theorem split_coverage_amended_witness :
    (1 : Int) ≤ 5 ∧ (0 : ℚ) ≤ 1 ∧ (1 : ℚ) ≤ 1 ∧
    (∃ boxes, split_image_into_horizontal_stripes img500x1000 5 1 = Except.ok boxes ∧
      (∀ r : Int, rowCovered boxes r ↔
        0 ≤ r ∧ r < min (5 * ((img500x1000.height : Int).fdiv 5) +
          ⌊(((img500x1000.height : Int).fdiv 5 : Int) : ℚ) * 1⌋) (img500x1000.height : Int)) ∧
      ((∀ r : Int, 0 ≤ r → r < (img500x1000.height : Int) → rowCovered boxes r) ↔
        (img500x1000.height : Int) % 5 ≤
          ⌊(((img500x1000.height : Int).fdiv 5 : Int) : ℚ) * 1⌋)) :=
  ⟨by decide, zero_le_one, le_refl 1,
    split_coverage_amended img500x1000 5 1 (by decide) zero_le_one (le_refl 1)⟩

/-- Claim C2 fails on the code as stated: a 10 × 3 image split with `n = 2`,
`f = 0` yields stripes `[0,1)` and `[1,2)`; row `2` of `[0,3)` is covered by
no stripe, and the last stripe's lower bound is `2`, not the image height
`3` (the `min` clamp does not extend the last stripe to the bottom). -/
theorem split_coverage_cex :
    ¬ (∀ boxes, split_image_into_horizontal_stripes img10x3 2 0 = Except.ok boxes →
        (∀ r : Int, 0 ≤ r → r < (img10x3.height : Int) → rowCovered boxes r) ∧
        (∀ b, boxes.getLast? = some b → b.lower = (img10x3.height : Int))) := by
  intro hcl
  have hs : split_image_into_horizontal_stripes img10x3 2 0 =
      Except.ok [⟨0, 0, 10, 1⟩, ⟨0, 1, 10, 2⟩] := by
    with_unfolding_all decide
  obtain ⟨hcov, -⟩ := hcl _ hs
  have h2 := hcov 2 (by norm_num) (by norm_num [img10x3])
  revert h2
  with_unfolding_all decide

/-- Claim C3 (amended): for the 500×1000 image with `n = 5`, `f = 1/10` the
five stripes span rows [0,220), [180,420), [380,620), [580,820), [780,1000):
stripe 0 spans [0,220) and stripe 4 spans [780,1000) as the claim states,
but stripe 2 spans [380,620) — the claimed range [180,420) is stripe 1. -/
theorem split_example_stripes :
    split_image_into_horizontal_stripes img500x1000 5 (1/10) =
      Except.ok [⟨0, 0, 500, 220⟩, ⟨0, 180, 500, 420⟩, ⟨0, 380, 500, 620⟩,
        ⟨0, 580, 500, 820⟩, ⟨0, 780, 500, 1000⟩] := by
  with_unfolding_all decide

/-- Claim C3 fails on the code at its own input: stripe 2 (0-based) of the
500×1000, `n = 5`, `f = 1/10` split spans [380,620), not [180,420). -/
theorem split_example_stripes_cex :
    ¬ (∃ boxes, split_image_into_horizontal_stripes img500x1000 5 (1/10) = Except.ok boxes ∧
        ∃ h2 : 2 < boxes.length,
          (boxes.get ⟨2, h2⟩).upper = 180 ∧ (boxes.get ⟨2, h2⟩).lower = 420) := by
  rintro ⟨boxes, heq, h2, hu, hl⟩
  have hs : split_image_into_horizontal_stripes img500x1000 5 (1/10) =
      Except.ok [⟨0, 0, 500, 220⟩, ⟨0, 180, 500, 420⟩, ⟨0, 380, 500, 620⟩,
        ⟨0, 580, 500, 820⟩, ⟨0, 780, 500, 1000⟩] := by
    with_unfolding_all decide
  rw [hs] at heq
  obtain rfl := (Except.ok.inj heq).symm
  simp [List.get_eq_getElem] at hu

/-- Claim C4 (amended): for every image, `n ≥ 2` and `0 < f ≤ 1`, each pair
of adjacent stripes `i`, `i+1` overlaps in exactly the rows
`[(i+1) * SH - OH, (i+1) * SH + OH)`, i.e. by exactly
`2 * overlapHeight` rows (each stripe extends `overlapHeight` beyond the cut
line on each side); the top/bottom clamps never bind on a shared edge, so no
clamping caveat is needed. -/
theorem split_adjacent_overlap_amended (image : PILImage) (n : Int) (f : ℚ)
    (hn : 2 ≤ n) (hf0 : 0 < f) (hf1 : f ≤ 1) :
    ∃ boxes, split_image_into_horizontal_stripes image n f = Except.ok boxes ∧
      ∀ i : Nat, ∀ hi : i < boxes.length, ∀ hi1 : i + 1 < boxes.length,
        (boxes.get ⟨i + 1, hi1⟩).upper =
          ((i : Int) + 1) * ((image.height : Int).fdiv n) -
            ⌊(((image.height : Int).fdiv n : Int) : ℚ) * f⌋ ∧
        (boxes.get ⟨i, hi⟩).lower =
          ((i : Int) + 1) * ((image.height : Int).fdiv n) +
            ⌊(((image.height : Int).fdiv n : Int) : ℚ) * f⌋ ∧
        (boxes.get ⟨i, hi⟩).lower - (boxes.get ⟨i + 1, hi1⟩).upper =
          2 * ⌊(((image.height : Int).fdiv n : Int) : ℚ) * f⌋ ∧
        (∀ r : Int, (rowInStripe (boxes.get ⟨i, hi⟩) r ∧
            rowInStripe (boxes.get ⟨i + 1, hi1⟩) r) ↔
          ((boxes.get ⟨i + 1, hi1⟩).upper ≤ r ∧ r < (boxes.get ⟨i, hi⟩).lower)) := by
  obtain ⟨hSH, hOH0, hOHSH, hle, hlt, hpy⟩ :=
    split_context image n f (by omega) (le_of_lt hf0) hf1
  have hH : (0 : Int) ≤ (image.height : Int) := Int.natCast_nonneg _
  refine ⟨_, by rw [split_eq_ok image n f (by omega), hpy], ?_⟩
  intro i hi hi1
  have hi1n : i + 1 < n.toNat := by
    rw [List.length_map, pyRange_length] at hi1
    exact hi1
  rw [map_pyRange_get, map_pyRange_get]
  simp only [stripeBox, stripeUpper, stripeLower, rowInStripe]
  push_cast
  have hi2n : (i : Int) + 2 ≤ n := by omega
  have h1 : ((i : Int) + 1) * ((image.height : Int).fdiv n) ≤
      ((i : Int) + 2) * ((image.height : Int).fdiv n) :=
    mul_le_mul_of_nonneg_right (by omega) hSH
  have h2 : ((i : Int) + 2) * ((image.height : Int).fdiv n) ≤
      n * ((image.height : Int).fdiv n) :=
    mul_le_mul_of_nonneg_right hi2n hSH
  have h3 : 1 * ((image.height : Int).fdiv n) ≤
      ((i : Int) + 1) * ((image.height : Int).fdiv n) :=
    mul_le_mul_of_nonneg_right (by omega) hSH
  have h4 : (i : Int) * ((image.height : Int).fdiv n) ≤
      ((i : Int) + 1) * ((image.height : Int).fdiv n) :=
    mul_le_mul_of_nonneg_right (by omega) hSH
  have h5 : ((i : Int) + 1 + 1) * ((image.height : Int).fdiv n) =
      ((i : Int) + 2) * ((image.height : Int).fdiv n) := by ring
  have h6 : ((i : Int) + 2) * ((image.height : Int).fdiv n) =
      ((i : Int) + 1) * ((image.height : Int).fdiv n) + (image.height : Int).fdiv n := by
    ring
  have h7 : ((i : Int) + 1) * ((image.height : Int).fdiv n) =
      (i : Int) * ((image.height : Int).fdiv n) + (image.height : Int).fdiv n := by
    ring
  rw [one_mul] at h3
  rw [h5]
  refine ⟨by omega, by omega, by omega, fun r => by omega⟩

/-- Claim C4 (amended), witness: the theorem applied to a 500 × 1000 image
with `n = 5` and `f = 1`. -/
theorem split_adjacent_overlap_amended_witness :
    (2 : Int) ≤ 5 ∧ (0 : ℚ) < 1 ∧ (1 : ℚ) ≤ 1 ∧
    (∃ boxes, split_image_into_horizontal_stripes img500x1000 5 1 = Except.ok boxes ∧
      ∀ i : Nat, ∀ hi : i < boxes.length, ∀ hi1 : i + 1 < boxes.length,
        (boxes.get ⟨i + 1, hi1⟩).upper =
          ((i : Int) + 1) * ((img500x1000.height : Int).fdiv 5) -
            ⌊(((img500x1000.height : Int).fdiv 5 : Int) : ℚ) * 1⌋ ∧
        (boxes.get ⟨i, hi⟩).lower =
          ((i : Int) + 1) * ((img500x1000.height : Int).fdiv 5) +
            ⌊(((img500x1000.height : Int).fdiv 5 : Int) : ℚ) * 1⌋ ∧
        (boxes.get ⟨i, hi⟩).lower - (boxes.get ⟨i + 1, hi1⟩).upper =
          2 * ⌊(((img500x1000.height : Int).fdiv 5 : Int) : ℚ) * 1⌋ ∧
        (∀ r : Int, (rowInStripe (boxes.get ⟨i, hi⟩) r ∧
            rowInStripe (boxes.get ⟨i + 1, hi1⟩) r) ↔
          ((boxes.get ⟨i + 1, hi1⟩).upper ≤ r ∧ r < (boxes.get ⟨i, hi⟩).lower))) :=
  ⟨by decide, zero_lt_one, le_refl 1,
    split_adjacent_overlap_amended img500x1000 5 1 (by decide) zero_lt_one (le_refl 1)⟩

/-- Claim C4 fails on the code as stated: for the 500×1000 image, `n = 5`,
`f = 1/10`, `overlapHeight = ⌊200 * 1/10⌋ = 20`, but stripes 0 = [0,220) and
1 = [180,420) share the 40 rows [180,220): the shared-edge overlap is
`2 * overlapHeight = 40`, not `overlapHeight = 20`, with no clamping
involved. -/
theorem split_adjacent_overlap_cex :
    ¬ (∀ boxes, split_image_into_horizontal_stripes img500x1000 5 (1/10) = Except.ok boxes →
        ∀ h0 : 0 < boxes.length, ∀ h1 : 1 < boxes.length,
          (boxes.get ⟨0, h0⟩).lower - (boxes.get ⟨1, h1⟩).upper =
            ⌊(((img500x1000.height : Int).fdiv 5 : Int) : ℚ) * (1/10)⌋) := by
  intro hcl
  have hs : split_image_into_horizontal_stripes img500x1000 5 (1/10) =
      Except.ok [⟨0, 0, 500, 220⟩, ⟨0, 180, 500, 420⟩, ⟨0, 380, 500, 620⟩,
        ⟨0, 580, 500, 820⟩, ⟨0, 780, 500, 1000⟩] := by
    with_unfolding_all decide
  have hOH : ⌊(((img500x1000.height : Int).fdiv 5 : Int) : ℚ) * (1/10)⌋ = 20 := by
    with_unfolding_all decide
  have h := hcl _ hs (by simp) (by simp)
  rw [hOH] at h
  simp [List.get_eq_getElem] at h

/-- Claim C5 describes validation the code's docstring promises
(`ValueError` for `stripe_count < 1` or `overlap` outside `[0,1]`) but the
function body never performs: `stripe_count = -1` silently returns the empty
list, `stripe_count = 0` raises `ZeroDivisionError` (from `height // 0`),
not `ValueError`; `overlap = -0.1` and `overlap = 1.1` are silently
accepted and produce stripes; and a zero-dimension image is split into five
empty stripes with no `InvalidImage` error. -/
theorem split_no_argument_validation :
    split_image_into_horizontal_stripes img100x100 (-1) (1/10) = Except.ok [] ∧
    split_image_into_horizontal_stripes img100x100 0 (1/10) =
      Except.error PyError.zeroDivisionError ∧
    split_image_into_horizontal_stripes img100x100 5 (-1/10) =
      Except.ok [⟨0, 2, 100, 18⟩, ⟨0, 22, 100, 38⟩, ⟨0, 42, 100, 58⟩,
        ⟨0, 62, 100, 78⟩, ⟨0, 82, 100, 98⟩] ∧
    split_image_into_horizontal_stripes img100x100 5 (11/10) =
      Except.ok [⟨0, 0, 100, 42⟩, ⟨0, 0, 100, 62⟩, ⟨0, 18, 100, 82⟩,
        ⟨0, 38, 100, 100⟩, ⟨0, 58, 100, 100⟩] ∧
    split_image_into_horizontal_stripes img0x0 5 (1/10) =
      Except.ok [⟨0, 0, 0, 0⟩, ⟨0, 0, 0, 0⟩, ⟨0, 0, 0, 0⟩, ⟨0, 0, 0, 0⟩,
        ⟨0, 0, 0, 0⟩] := by
  refine ⟨?_, ?_, ?_, ?_, ?_⟩ <;> with_unfolding_all decide

/-- Claim C6 describes a check the code's docstring promises (`ValueError`
on an empty list) but the body does not perform: on the empty list the
function joins nothing into the empty combined text and still issues
exactly one remote call, whose prompt embeds the empty string, and returns
the trimmed response — no error, and not zero remote calls. -/
theorem format_to_table_empty_issues_call :
    (format_to_table (fun _ => "| a | b |") (some "chave") []
        "llama-3.3-70b-versatile").2 =
      [{ config := { groq_api_key := some "chave",
                     model_name := "llama-3.3-70b-versatile",
                     temperature := 0, max_retries := 3 },
         prompt := consolidationPrompt "" }] ∧
    (format_to_table (fun _ => "| a | b |") (some "chave") []
        "llama-3.3-70b-versatile").1 = "| a | b |" := by
  exact ⟨rfl, by with_unfolding_all decide⟩

/-- Claim C7: for every sequence of per-stripe texts (as the claim states it,
a non-empty one), `format_to_table` joins the texts in stripe order with a
blank line (`"\n\n".join`), issues exactly one remote call whose prompt is
the consolidation instruction with that combined text appended, and returns
the remote response trimmed of leading/trailing whitespace — with no parsing
or validation of the response. -/
theorem format_to_table_contract (invoke : RemoteCall → String)
    (key : Option String) (markdown_runs : List String) (model : String)
    (hne : markdown_runs ≠ []) :
    format_to_table invoke key markdown_runs model =
      ((invoke { config := { groq_api_key := key, model_name := model,
                             temperature := 0, max_retries := 3 },
                 prompt := consolidationPrompt
                   (String.intercalate "\n\n" markdown_runs) }).trim,
       [{ config := { groq_api_key := key, model_name := model,
                      temperature := 0, max_retries := 3 },
          prompt := consolidationPrompt
            (String.intercalate "\n\n" markdown_runs) }]) :=
  rfl

/-- Claim C7, witness: the theorem applied to two concrete stripe texts and
the oracle that echoes the prompt back. -/
theorem format_to_table_contract_witness :
    (["Nome: Ana", "Idade: 30"] : List String) ≠ [] ∧
    format_to_table (fun c => c.prompt) (some "chave") ["Nome: Ana", "Idade: 30"] "m" =
      (((fun (c : RemoteCall) => c.prompt)
          { config := { groq_api_key := some "chave", model_name := "m",
                        temperature := 0, max_retries := 3 },
            prompt := consolidationPrompt
              (String.intercalate "\n\n" ["Nome: Ana", "Idade: 30"]) }).trim,
       [{ config := { groq_api_key := some "chave", model_name := "m",
                      temperature := 0, max_retries := 3 },
          prompt := consolidationPrompt
            (String.intercalate "\n\n" ["Nome: Ana", "Idade: 30"]) }]) :=
  ⟨List.cons_ne_nil _ _,
    format_to_table_contract (fun c => c.prompt) (some "chave")
      ["Nome: Ana", "Idade: 30"] "m" (List.cons_ne_nil _ _)⟩

/-- Claim C8: the image encoder is deterministic — encoding the same image
twice with the same codec settings (RGB conversion, JPEG at quality 90,
base64 text encoding) yields identical output bytes; moreover the encoding
is exactly base64 of the quality-90 JPEG of the RGB conversion. -/
theorem encode_image_pil_deterministic (convert : PILImage → PILImage)
    (jpegSave : PILImage → Nat → List Nat) (img1 img2 : PILImage)
    (h : img1 = img2) :
    encode_image_pil convert jpegSave img1 = encode_image_pil convert jpegSave img2 ∧
    encode_image_pil convert jpegSave img1 = b64encode (jpegSave (convert img1) 90) := by
  subst h
  exact ⟨rfl, rfl⟩

/-- Claim C8, witness: the theorem applied to a concrete image and a stub
codec; the encoding of the bytes `[77, 97, 110]` evaluates to `"TWFu"`. -/
theorem encode_image_pil_deterministic_witness :
    img100x100 = img100x100 ∧
    (encode_image_pil id (fun _ _ => [77, 97, 110]) img100x100 =
        encode_image_pil id (fun _ _ => [77, 97, 110]) img100x100 ∧
      encode_image_pil id (fun _ _ => [77, 97, 110]) img100x100 =
        b64encode ((fun (_ : PILImage) (_ : Nat) => [77, 97, 110]) (id img100x100) 90)) :=
  ⟨rfl, encode_image_pil_deterministic id (fun _ _ => [77, 97, 110])
    img100x100 img100x100 rfl⟩

/-- Claim C9 fails on the code: with `GROQ_API_KEY` absent, `os.getenv`
returns `None`, `config/settings.py` raises nothing, `OCRProcessor.__init__`
succeeds storing `None`, and a consolidation call is still issued carrying
the missing credential — there is no fatal configuration error before a
remote call is attempted. -/
theorem missing_key_no_startup_error :
    (OCRProcessor.init (fun _ => none)).groq_api_key = none ∧
    ((format_to_table (fun _ => "| tabela |")
        (OCRProcessor.init (fun _ => none)).groq_api_key
        ["texto"] "llama-3.3-70b-versatile").2.map
      fun c => c.config.groq_api_key) = [none] :=
  ⟨rfl, rfl⟩

/-- Claim C9 (amended): when the credential is absent from the environment,
startup succeeds with `GROQ_API_KEY = None` stored in the processor; no
configuration error is raised, and remote calls are issued carrying the
missing (`None`) credential — any failure surfaces only inside the remote
client at call time. -/
theorem missing_key_behavior (env : String → Option String)
    (h : env "GROQ_API_KEY" = none) (invoke : RemoteCall → String)
    (runs : List String) (model : String) :
    (OCRProcessor.init env).groq_api_key = none ∧
    ((format_to_table invoke (OCRProcessor.init env).groq_api_key runs model).2.map
        fun c => c.config.groq_api_key) = [none] := by
  unfold OCRProcessor.init load_GROQ_API_KEY
  rw [h]
  exact ⟨rfl, rfl⟩

/-- Claim C9 (amended), witness: the theorem applied to the empty
environment. -/
theorem missing_key_behavior_witness :
    ((fun _ => (none : Option String)) "GROQ_API_KEY" = none) ∧
    ((OCRProcessor.init (fun _ => none)).groq_api_key = none ∧
      ((format_to_table (fun _ => "resposta")
          (OCRProcessor.init (fun _ => none)).groq_api_key ["t"] "m").2.map
        fun c => c.config.groq_api_key) = [none]) :=
  ⟨rfl, missing_key_behavior (fun _ => none) rfl (fun _ => "resposta") ["t"] "m"⟩

end OCR
